import Mathlib

/-!
Verification of the Azure DevOps Pipeline Advisor analysis engine and
frontend display logic.

The repository ships a React frontend (`PipelineAnalyzer.js`,
`PipelineList.js`) and documents a Flask backend whose analyzer source is
not part of the visible tree.  The analyzer (YAML loader, metric
extractor, recommendation engine, response assembler) is therefore
modelled from the design specification; the frontend functions are
embedded directly from the JavaScript source.
-/

/-- Generic YAML value tree: mappings, sequences, scalars, null.  This is
the `PipelineDocument` representation of the spec: a typed generic value
variant with total accessor functions. -/
inductive Yaml where
  | scalar : String → Yaml
  | seq : List Yaml → Yaml
  | map : List (String × Yaml) → Yaml
  | null : Yaml

/-- Total key lookup on a YAML value: returns the value bound to `k` when
the node is a mapping containing `k`, and `none` otherwise (wrong node
kind included), so every probe into the tree has a safe default. -/
def Yaml.get (y : Yaml) (k : String) : Option Yaml :=
  match y with
  | .map kvs => (kvs.find? fun p => p.1 == k).map fun p => p.2
  | _ => none

/-- True when the document has a `stages` key bound to a sequence. -/
def isStagesSeq (doc : Yaml) : Bool :=
  match doc.get "stages" with
  | some (Yaml.seq _) => true
  | _ => false

/-- True when the document carries any job/step structure at top level,
used to decide whether an implicit stage exists. -/
def hasJobStructure (doc : Yaml) : Bool :=
  (doc.get "jobs").isSome || (doc.get "steps").isSome

/-- A stage's declared name: its `stage` scalar if present, else its
`displayName` scalar, else none. -/
def declaredName (s : Yaml) : Option String :=
  match s.get "stage" with
  | some (Yaml.scalar n) => some n
  | _ =>
    match s.get "displayName" with
    | some (Yaml.scalar n) => some n
    | _ => none

/-- The key identifying stage `s` at position `i` in `jobs_per_stage`:
the declared name when present, else the positional placeholder. -/
def stageKey (i : Nat) (s : Yaml) : String :=
  (declaredName s).getD ("stage_" ++ toString i)

/-- Modelled from the spec: the metric extractor locates a stage's jobs
as its `jobs` sequence, or as one implicit job when the stage has a
`steps` key directly; otherwise the stage has no jobs. -/
def jobsOf (stage : Yaml) : List Yaml :=
  match stage.get "jobs" with
  | some (Yaml.seq js) => js
  | _ => if (stage.get "steps").isSome then [stage] else []

/-- A job's steps: its `steps` sequence, or empty when absent or
malformed. -/
def stepsOf (job : Yaml) : List Yaml :=
  match job.get "steps" with
  | some (Yaml.seq ss) => ss
  | _ => []

/-- List-of-characters prefix test, used to model the JavaScript
`String.prototype.includes` substring check. -/
def charsStartWith : List Char → List Char → Bool
  | [], _ => true
  | _ :: _, [] => false
  | a :: as, b :: bs => a == b && charsStartWith as bs

/-- Substring containment on character lists. -/
def charsContains (hay pat : List Char) : Bool :=
  match hay with
  | [] => pat.isEmpty
  | _ :: t => charsStartWith pat hay || charsContains t pat

/-- `strIncludes s pat` models JavaScript `s.includes(pat)`. -/
def strIncludes (s pat : String) : Bool :=
  charsContains s.toList pat.toList

/-- A step references a caching task when its `task` scalar mentions a
cache task name. -/
def isCachingStep (st : Yaml) : Bool :=
  match st.get "task" with
  | some (Yaml.scalar t) => strIncludes t "Cache"
  | _ => false

/-- A step declares an explicit condition when it has a `condition` key. -/
def hasCondition (st : Yaml) : Bool :=
  (st.get "condition").isSome

/-- Keyed stage list starting at positional index `i`. -/
def stageEntriesAux : Nat → List Yaml → List (String × Yaml)
  | _, [] => []
  | i, s :: rest => (stageKey i s, s) :: stageEntriesAux (i + 1) rest

/-- Modelled from the spec: the stages found in a document.  If `stages`
is present and a sequence its entries are used, keyed in document order;
otherwise the whole document is one implicit stage keyed `stage_0`,
provided any job/step structure exists, and a genuinely empty document
has no stages. -/
def stageEntries (doc : Yaml) : List (String × Yaml) :=
  match doc.get "stages" with
  | some (Yaml.seq ss) => stageEntriesAux 0 ss
  | _ => if hasJobStructure doc then [("stage_0", doc)] else []

/-- Structural metrics derived from a parsed pipeline document. -/
structure Metrics where
  stages_count : Nat
  jobs_per_stage : List (String × Nat)
  total_steps : Nat
  has_caching : Bool
  has_trigger : Bool
  has_condition : Bool

/-- Modelled from the spec: the metric extractor (`extract(doc) ->
Metrics`), whose backend source is not in the repository.  Computes the
stage count, the ordered jobs-per-stage mapping, the total step count and
the caching / trigger / condition presence flags, degrading absent or
malformed keys to zero counts and false flags. -/
def extract (doc : Yaml) : Metrics :=
  let se := stageEntries doc
  { stages_count := se.length
  , jobs_per_stage := se.map fun p => (p.1, (jobsOf p.2).length)
  , total_steps := (se.map fun p => ((jobsOf p.2).map fun j => (stepsOf j).length).sum).sum
  , has_caching := se.any fun p => (jobsOf p.2).any fun j => (stepsOf j).any isCachingStep
  , has_trigger := (doc.get "trigger").isSome
  , has_condition := se.any fun p => (jobsOf p.2).any fun j => (stepsOf j).any hasCondition }

/-- Warning message when no stage or job structure was detected. -/
def noStagesMsg : String :=
  "No stages or jobs detected - the pipeline may be malformed or empty"

/-- Warning message recommending that a stage with many jobs be split. -/
def splitStageMsg (name : String) : String :=
  "Stage " ++ name ++ " has many jobs - consider splitting it for parallelism and clarity"

/-- Warning message recommending a caching task. -/
def cachingMsg : String :=
  "No caching task detected - consider adding caching to reduce pipeline duration"

/-- Warning message recommending an explicit trigger block. -/
def triggerMsg : String :=
  "The pipeline relies on implicit default triggers - add an explicit trigger block for predictability"

/-- Positive confirmation message emitted when no rule fired. -/
def looksGoodMsg : String :=
  "Pipeline configuration looks good"

/-- Fixed threshold above which a stage's job count triggers the split
warning. -/
def maxJobsThreshold : Nat := 10

/-- Fixed threshold above which the total step count, without caching,
triggers the caching recommendation. -/
def cachingStepsThreshold : Nat := 5

/-- Modelled from the spec: the ordered battery of heuristic rules.  Each
rule inspects the metrics and optionally appends messages, in the fixed
order given by the design: no-stages, stage-split, caching, trigger. -/
def warnings (m : Metrics) : List String :=
  (if m.stages_count == 0 then [noStagesMsg] else [])
    ++ ((m.jobs_per_stage.filter fun p => maxJobsThreshold < p.2).map fun p => splitStageMsg p.1)
    ++ (if !m.has_caching && cachingStepsThreshold < m.total_steps then [cachingMsg] else [])
    ++ (if !m.has_trigger then [triggerMsg] else [])

/-- Modelled from the spec: the recommendation engine
(`evaluate(doc, metrics)`), whose backend source is not in the
repository.  Returns the warnings produced by the rule battery, or the
single positive confirmation when every rule produced no warning. -/
def evaluate (doc : Yaml) (m : Metrics) : List String :=
  let ws := warnings m
  if ws.isEmpty then [looksGoodMsg] else ws

/-- The analysis result combining metrics and recommendations. -/
structure AnalysisResult where
  analysis : Metrics
  recommendations : List String

/-- Modelled from the spec: the response assembler, a plain record
combining metrics and recommendations with no additional logic. -/
def assemble (m : Metrics) (recs : List String) : AnalysisResult :=
  ⟨m, recs⟩

/-- A parse failure of the YAML loader, distinguishable by type from any
analysis value. -/
structure ParseError where
  message : String

/-- Message carried by every parse failure. -/
def parseErrorMsg : String :=
  "Invalid YAML - the input is not well-formed structured data"

/-- Modelled from the spec: an unterminated quote, one of the named
malformation examples - an odd number of double-quote characters. -/
def unterminatedQuote (s : String) : Bool :=
  (s.toList.filter fun c => c == '\"').length % 2 == 1

/-- Modelled from the spec: bad indentation, the other named
malformation example - a line indented with a tab character. -/
def badIndent (s : String) : Bool :=
  (s.splitOn "\n").any fun l => charsStartWith ['\t'] l.toList

/-- Modelled from the spec: well-formedness of the input text as
structured data.  The backend YAML parser is not in the repository, so
only the spec's malformation examples (unterminated quote, bad
indentation) are modelled. -/
def wellFormed (s : String) : Bool :=
  !unterminatedQuote s && !badIndent s

/-- Decode a single `key: value` line into a mapping entry. -/
def decodeLine (l : String) : Option (String × Yaml) :=
  match l.splitOn ":" with
  | [] => none
  | [_] => none
  | k :: rest => some (k.trim, Yaml.scalar (String.intercalate ":" rest).trim)

/-- Modelled from the spec: pure structural decoding of well-formed text
into a generic tree, with no evaluation of embedded directives.  Only the
top-level mapping of `key: value` lines is modelled, which is all the
analysis stages probe on a decoded document. -/
def decode (s : String) : Yaml :=
  Yaml.map ((s.splitOn "\n").filterMap decodeLine)

/-- Modelled from the spec: the YAML loader (`parse(text) ->
PipelineDocument`), whose backend source is not in the repository.
Accepts arbitrary text; fails with a `ParseError` exactly when the text
is not well-formed, and never crashes or returns a silent empty result. -/
def parse (s : String) : Except ParseError Yaml :=
  if wellFormed s then Except.ok (decode s) else Except.error ⟨parseErrorMsg⟩

/-- Analysis of an already parsed document: extract metrics, evaluate the
rules, assemble the response. -/
def analyzeDoc (doc : Yaml) : AnalysisResult :=
  let m := extract doc
  assemble m (evaluate doc m)

/-- Modelled from the spec: the full analyzer entry point
`analyze(text) -> {metrics, recommendations}`, a pure function from the
input string with parse failures reported as `ParseError`. -/
def analyze (text : String) : Except ParseError AnalysisResult :=
  (parse text).map analyzeDoc

/-- Severity class of a recommendation as displayed by the UI. -/
inductive Severity where
  | success : Severity
  | warning : Severity

/-- Embedded from `PipelineAnalyzer.js` (recommendation list rendering):
a recommendation renders with the success check icon when its text
contains "looks good", and with the warning icon otherwise. -/
def recSeverity (rec : String) : Severity :=
  if strIncludes rec "looks good" then Severity.success else Severity.warning

/-- A Material UI status chip: label and color. -/
structure Chip where
  label : String
  color : String
deriving DecidableEq

/-- A JavaScript property-access result on the `statusMap` object
literal: an own data property holding a chip record, a truthy value
(function or object) inherited from `Object.prototype`, or `undefined`
when neither an own nor an inherited property exists. -/
inductive JsValue where
  | chip : Chip → JsValue
  | inherited : JsValue
  | undef : JsValue
deriving DecidableEq

/-- JavaScript truthiness of a property-access result: own chip objects
and inherited functions/objects are truthy, `undefined` is falsy. -/
def jsTruthy : JsValue → Bool
  | JsValue.chip _ => true
  | JsValue.inherited => true
  | JsValue.undef => false

/-- Property names every object literal inherits from
`Object.prototype`, at which `statusMap[status]` yields a truthy
function or object rather than `undefined`. -/
def protoProps : List String :=
  ["constructor", "hasOwnProperty", "isPrototypeOf", "propertyIsEnumerable",
   "toLocaleString", "toString", "valueOf", "__proto__",
   "__defineGetter__", "__defineSetter__", "__lookupGetter__", "__lookupSetter__"]

/-- Embedded from `PipelineList.js`: the property access
`statusMap[status]` on the object literal of `getStatusChip`, with
JavaScript semantics - the four own entries (the `default` entry
included), then the properties inherited from `Object.prototype`, then
`undefined`. -/
def statusMap (status : String) : JsValue :=
  if status == "succeeded" then JsValue.chip ⟨"Succeeded", "success"⟩
  else if status == "failed" then JsValue.chip ⟨"Failed", "error"⟩
  else if status == "running" then JsValue.chip ⟨"Running", "info"⟩
  else if status == "default" then JsValue.chip ⟨"Unknown", "default"⟩
  else if protoProps.contains status then JsValue.inherited
  else JsValue.undef

/-- The chip fields obtained by rendering: `label` and `color` are
`none` when the destructured property is `undefined`, which happens for
a value inherited from `Object.prototype`. -/
structure RenderedChip where
  label : Option String
  color : Option String
deriving DecidableEq

/-- Destructuring `const { label, color } = v` on a lookup result: a
chip record gives its fields, an inherited function or object has no
`label`/`color` properties so both are `undefined`. -/
def destructChip : JsValue → RenderedChip
  | JsValue.chip c => ⟨some c.label, some c.color⟩
  | _ => ⟨none, none⟩

/-- Embedded from `PipelineList.js`: `getStatusChip` evaluates
`statusMap[status] || statusMap.default` and destructures the result
into the rendered chip's label and color. -/
def getStatusChip (status : String) : RenderedChip :=
  let v := statusMap status
  destructChip (if jsTruthy v then v else statusMap "default")

/-- Component state of the `PipelineAnalyzer` React component. -/
structure AnalyzerState where
  yamlContent : String
  analysis : Option AnalysisResult
  loading : Bool
  error : String

/-- Network effect of one `handleAnalyze` invocation: either no request,
or a POST of the YAML content to the analyze endpoint. -/
inductive NetEffect where
  | none : NetEffect
  | postAnalyze : String → NetEffect

/-- `jsTrim s` models JavaScript `s.trim()`: the string with leading and
trailing whitespace characters removed. -/
def jsTrim (s : String) : String :=
  String.mk (((s.toList.dropWhile Char.isWhitespace).reverse.dropWhile Char.isWhitespace).reverse)

/-- Error message shown for blank input. -/
def blankErrorMsg : String :=
  "Please enter YAML content to analyze"

/-- Embedded from `PipelineAnalyzer.js` lines 26-38: the synchronous
prefix of `handleAnalyze`.  Blank (empty after trim) content sets the
error message and returns with no request; otherwise loading is set, the
error cleared, and the content posted to the analyze endpoint. -/
def handleAnalyzeStep (st : AnalyzerState) : AnalyzerState × NetEffect :=
  if (jsTrim st.yamlContent).isEmpty then
    ({ st with error := blankErrorMsg }, NetEffect.none)
  else
    ({ st with loading := true, error := "" }, NetEffect.postAnalyze st.yamlContent)

/-! ## Helper lemmas -/

/-- The keyed stage list has one entry per stage, whatever the starting
index. -/
theorem stageEntriesAux_length (ss : List Yaml) :
    ∀ i, (stageEntriesAux i ss).length = ss.length := by
  induction ss with
  | nil => intro i; rfl
  | cons s rest ih => intro i; simp [stageEntriesAux, ih]

/-- Key of the `j`-th entry of the jobs-per-stage list built from an
explicit stage sequence: the stage key at absolute position `i + j`. -/
theorem jobsPerStageAux_key (ss : List Yaml) :
    ∀ (i j : Nat), j < ss.length →
      (((stageEntriesAux i ss).map fun p => (p.1, (jobsOf p.2).length)).getD j ("", 0)).1
        = stageKey (i + j) (ss.getD j Yaml.null) := by
  induction ss with
  | nil => intro i j h; simp at h
  | cons s rest ih =>
    intro i j h
    cases j with
    | zero => simp [stageEntriesAux]
    | succ j =>
      have h2 : j < rest.length := Nat.lt_of_succ_lt_succ h
      have harith : i + 1 + j = i + (j + 1) := by omega
      simpa [stageEntriesAux, harith] using ih (i + 1) j h2

/-- A metrics record with no trigger always has the trigger warning in
the rule battery output. -/
theorem trigger_mem_warnings (m : Metrics) (h : m.has_trigger = false) :
    triggerMsg ∈ warnings m := by
  simp [warnings, h]

/-- Every warning produced by the rule battery survives into the final
recommendation list. -/
theorem mem_evaluate_of_mem_warnings (doc : Yaml) (m : Metrics) (s : String)
    (h : s ∈ warnings m) : s ∈ evaluate doc m := by
  cases hw : warnings m with
  | nil => rw [hw] at h; simp at h
  | cons a as =>
    rw [hw] at h
    simpa [evaluate, hw] using h

/-! ## Claim theorems -/

/-- C1: for every document and metrics record the recommendation list
returned by `evaluate` is non-empty; when no heuristic rule produced a
warning it is exactly the single positive confirmation message, and
otherwise it is exactly the warnings. -/
theorem evaluate_result_shape (doc : Yaml) (m : Metrics) :
    evaluate doc m ≠ [] ∧
      (warnings m = [] → evaluate doc m = [looksGoodMsg]) ∧
      (warnings m ≠ [] → evaluate doc m = warnings m) := by
  cases hw : warnings m with
  | nil => simp [evaluate, hw]
  | cons a as => simp [evaluate, hw]

/-- Witness for C1 at a metrics record that triggers no rule. -/
theorem evaluate_result_shape_witness :
    evaluate (Yaml.map []) ⟨1, [("stage_0", 1)], 0, true, true, false⟩ = [looksGoodMsg] :=
  (evaluate_result_shape (Yaml.map []) ⟨1, [("stage_0", 1)], 0, true, true, false⟩).2.1 rfl

/-- C2: for every parsed document the extracted metrics satisfy
`stages_count = length jobs_per_stage` - one entry per stage found,
the synthetic implicit stage included. -/
theorem stages_count_eq_jobs_length (doc : Yaml) :
    (extract doc).stages_count = (extract doc).jobs_per_stage.length := by
  simp [extract]

/-- C5: `analyze` is a pure deterministic function - two calls on the
same input string return identical results. -/
theorem analyze_deterministic (x : String) : analyze x = analyze x := rfl

/-- C3: every input string that is not well-formed structured data makes
`parse` fail with a `ParseError` carrying a message - a typed error
distinct from any analysis value, never a crash and never a silent empty
result. -/
theorem parse_malformed_error (s : String) (h : wellFormed s = false) :
    parse s = Except.error ⟨parseErrorMsg⟩ := by
  simp [parse, h]

/-- Witness for C3 at an input with an unterminated quote. -/
theorem parse_malformed_error_witness :
    parse "steps:\n  - script: echo \"unterminated" = Except.error ⟨parseErrorMsg⟩ :=
  parse_malformed_error "steps:\n  - script: echo \"unterminated" (by decide)

/-- C4: `extract` (and with it `evaluate`, both total functions) never
raises - when the optional keys are absent or malformed the metrics
degrade to zero counts, an empty mapping and false flags. -/
theorem extract_degrades_to_defaults (doc : Yaml)
    (h1 : isStagesSeq doc = false) (h2 : doc.get "jobs" = none)
    (h3 : doc.get "steps" = none) (h4 : doc.get "trigger" = none) :
    extract doc = ⟨0, [], 0, false, false, false⟩ := by
  have hj : hasJobStructure doc = false := by simp [hasJobStructure, h2, h3]
  have hse : stageEntries doc = [] := by
    unfold stageEntries
    split
    · rename_i ss hg
      simp [isStagesSeq, hg] at h1
    · simp [hj]
  simp [extract, hse, h4]

/-- Witness for C4 at a document whose `stages` key is malformed (bound
to a scalar) and whose other optional keys are absent. -/
theorem extract_degrades_to_defaults_witness :
    extract (Yaml.map [("stages", Yaml.scalar "oops")]) = ⟨0, [], 0, false, false, false⟩ :=
  extract_degrades_to_defaults (Yaml.map [("stages", Yaml.scalar "oops")]) rfl rfl rfl rfl

/-- C6: the keys of `jobs_per_stage` follow document order - when the
document has an explicit `stages` sequence the `j`-th entry is keyed by
the `j`-th stage's declared name, or the placeholder `stage_<j>` when it
has none; and a document without a `stages` sequence but with job/step
structure yields the single implicit stage keyed `stage_0`. -/
theorem jobs_per_stage_keys (doc : Yaml) :
    (∀ ss, doc.get "stages" = some (Yaml.seq ss) →
        ((extract doc).jobs_per_stage.length = ss.length ∧
          ∀ j : Nat, j < ss.length →
            ((extract doc).jobs_per_stage.getD j ("", 0)).1
              = stageKey j (ss.getD j Yaml.null))) ∧
      (isStagesSeq doc = false → hasJobStructure doc = true →
        (extract doc).jobs_per_stage = [("stage_0", (jobsOf doc).length)]) := by
  constructor
  · intro ss hg
    have hse : stageEntries doc = stageEntriesAux 0 ss := by
      unfold stageEntries
      rw [hg]
    constructor
    · simp [extract, hse, stageEntriesAux_length]
    · intro j hj
      have hkey := jobsPerStageAux_key ss 0 j hj
      simpa [extract, hse] using hkey
  · intro h1 h2
    have hse : stageEntries doc = [("stage_0", doc)] := by
      unfold stageEntries
      split
      · rename_i ss hg
        simp [isStagesSeq, hg] at h1
      · simp [h2]
    simp [extract, hse]

/-- Witness for C6 at a two-stage document whose first stage is named
`Build`. -/
theorem jobs_per_stage_keys_witness :
    ((extract (Yaml.map [("stages",
        Yaml.seq [Yaml.map [("stage", Yaml.scalar "Build")], Yaml.map []])])).jobs_per_stage.getD
          0 ("", 0)).1 = "Build" :=
  Eq.trans
    (((jobs_per_stage_keys (Yaml.map [("stages",
        Yaml.seq [Yaml.map [("stage", Yaml.scalar "Build")], Yaml.map []])])).1
      [Yaml.map [("stage", Yaml.scalar "Build")], Yaml.map []] rfl).2 0 (by decide))
    (by decide)

/-- C7: whenever the top-level `trigger` key is absent from a parsed
document, the recommendation list contains the explicit-trigger warning;
absence counts as the worst case, no trigger. -/
theorem absent_trigger_warns (doc : Yaml) (h : doc.get "trigger" = none) :
    triggerMsg ∈ evaluate doc (extract doc) := by
  have ht : (extract doc).has_trigger = false := by simp [extract, h]
  exact mem_evaluate_of_mem_warnings doc (extract doc) triggerMsg
    (trigger_mem_warnings (extract doc) ht)

/-- Witness for C7 at the empty mapping document. -/
theorem absent_trigger_warns_witness :
    triggerMsg ∈ evaluate (Yaml.map []) (extract (Yaml.map [])) :=
  absent_trigger_warns (Yaml.map []) rfl

/-- C8: the UI severity of a rendered recommendation is inferred solely
from its text - it renders as the informational success class exactly
when the string contains the substring "looks good", and as a warning in
every other case. -/
theorem severity_from_text (msg : String) :
    (recSeverity msg = Severity.success ↔ strIncludes msg "looks good" = true) ∧
      (recSeverity msg = Severity.warning ↔ strIncludes msg "looks good" = false) := by
  unfold recSeverity
  cases h : strIncludes msg "looks good" <;> simp [h]

/-- Witness for C8: the positive confirmation message renders as a
success. -/
theorem severity_from_text_witness :
    recSeverity looksGoodMsg = Severity.success :=
  (severity_from_text looksGoodMsg).1.mpr (by decide)

/-- C9, counterexample to the claim as stated: at the status string
`toString`, outside succeeded/failed/running, the lookup hits the
truthy `Object.prototype` member, the default fallback is not taken,
and the rendered chip has undefined label and color rather than the
`Unknown`/`default` chip. -/
theorem getStatusChip_fallback_cex :
    getStatusChip "toString" = ⟨none, none⟩ ∧
      getStatusChip "toString" ≠ ⟨some "Unknown", some "default"⟩ := by
  constructor
  · rfl
  · decide

/-- C9, amended: `getStatusChip` is total on arbitrary status strings -
any status outside succeeded/failed/running that is not a property name
inherited from `Object.prototype` falls back to the default entry and
yields the chip labeled `Unknown` with color `default`, the spec's
fourth value `unknown` included; at an inherited property name the
truthy inherited value is destructured instead, still without
throwing. -/
theorem getStatusChip_fallback_amended (status : String)
    (h1 : status ≠ "succeeded") (h2 : status ≠ "failed") (h3 : status ≠ "running")
    (h4 : protoProps.contains status = false) :
    getStatusChip status = ⟨some "Unknown", some "default"⟩ := by
  by_cases hd : status = "default"
  · subst hd
    rfl
  · have h4m : status ∉ protoProps := by simpa using h4
    have hl : statusMap status = JsValue.undef := by
      simp [statusMap, beq_iff_eq, h1, h2, h3, h4m, hd]
    simp [getStatusChip, hl]
    decide

/-- Witness for C9 at the status string `unknown`, which has no entry of
its own in the map and is not an inherited property name. -/
theorem getStatusChip_fallback_amended_witness :
    getStatusChip "unknown" = ⟨some "Unknown", some "default"⟩ :=
  getStatusChip_fallback_amended "unknown" (by decide) (by decide) (by decide) (by decide)

/-- C10: on blank (empty or whitespace-only) YAML content,
`handleAnalyze` sets the error message and returns with no network
request, leaving the analysis and loading state unchanged, so blank
input never reaches the analyze endpoint. -/
theorem handleAnalyze_blank (st : AnalyzerState) (h : jsTrim st.yamlContent = "") :
    handleAnalyzeStep st = ({ st with error := blankErrorMsg }, NetEffect.none) ∧
      (handleAnalyzeStep st).1.analysis = st.analysis ∧
      (handleAnalyzeStep st).1.loading = st.loading := by
  have he : (jsTrim st.yamlContent).isEmpty = true := by rw [h]; rfl
  refine ⟨?_, ?_, ?_⟩ <;> simp [handleAnalyzeStep, he]

/-- Witness for C10 at a whitespace-only input state. -/
theorem handleAnalyze_blank_witness :
    handleAnalyzeStep ⟨"   ", none, false, ""⟩
      = (⟨"   ", none, false, blankErrorMsg⟩, NetEffect.none) :=
  (handleAnalyze_blank ⟨"   ", none, false, ""⟩ (by decide)).1
